import Mathlib

/-!
Verification development for the rule-language trading-strategy engine.

The definitions below are shallow embeddings of the repository sources:

* ast_nodes.py      : AstExpr / AstRule / AstStrategy
* dsl_parser.py     : tokenize, the recursive-descent model of the Lark LALR
                      grammar, the AstTransformer callbacks, parseCore, parseDsl
* code_generator.py : GenState, visit / visitList, generateRules, generateSt
* backtest.py       : Row / Trade / SimState, simStep, runSim
* the pandas semantics of the generated crossover expressions :
                      shift1, crossOverEval, crossEval

Python floats are modelled as rationals; the pandas NaN produced by
shift(1) at index 0 is modelled by Option (comparisons against it are
false, as in pandas).
-/

/-- AST node kinds of ast_nodes.py.  Python class names become constructor
names; each constructor stores exactly the fields of the Python class. -/
inductive AstExpr where
  | logicalOperation (operator : String) (operands : List AstExpr)
  | comparison (operator : String) (left right : AstExpr)
  | cross (left right : AstExpr)
  | crossOver (left right : AstExpr)
  | crossUnder (left right : AstExpr)
  | indicator (name : String) (params : List AstExpr)
  | identifier (name : String)
  | number (value : ℚ)
deriving Repr

/-- Python str.upper() for the ASCII identifiers of the rule language
(character-by-character upper-casing). -/
def strUpper (s : String) : String := String.mk (s.data.map Char.toUpper)

/-- Python str.lower(), as strUpper. -/
def strLower (s : String) : String := String.mk (s.data.map Char.toLower)

/-- Indicator.__init__ stores `name.upper()`; this smart constructor models
that normalisation. -/
def mkIndicator (name : String) (params : List AstExpr) : AstExpr :=
  .indicator (strUpper name) params

/-- EntryRule / ExitRule of ast_nodes.py. -/
inductive AstRule where
  | entryRule (condition : AstExpr)
  | exitRule (condition : AstExpr)
deriving Repr

/-- Strategy of ast_nodes.py: the root node holding the rule list. -/
structure AstStrategy where
  rules : List AstRule
deriving Repr

/-! ## Tokenizer

Model of the Lark lexer for the grammar in dsl_parser.py.  Keywords
ENTRY:/EXIT:/AND/OR are case-insensitive ("..."i in the grammar);
CROSS/CROSSOVER/CROSSUNDER are case-sensitive string literals; CNAME and
NUMBER are the usual common terminals; whitespace is ignored.  Keyword
literals take priority over CNAME, as in Lark.  (Lark's contextual lexer
would let an identifier spelled like a keyword lex as CNAME in positions
where the keyword is not acceptable; no claim exercises such inputs and the
model always prefers the keyword.)  Exponent forms of NUMBER are not
modelled; no claim uses them. -/

inductive TokKind where
  | entryKw | exitKw | lpar | rpar | commaTok
  | compOp | andKw | orKw | crossKw | crossoverKw | crossunderKw
  | cnameTok | numberTok
deriving DecidableEq, Repr

/-- A lexed token: kind, matched text (token.value) and start position. -/
structure PTok where
  kind : TokKind
  val : String
  pos : Nat
deriving DecidableEq, Repr

/-- A parse-stage error: position and message.  Lexer and grammar errors in
Lark carry a position; transformer exceptions (TypeError/ValueError) carry
only a message and are modelled with position 0. -/
structure PErr where
  pos : Nat
  msg : String
deriving DecidableEq, Repr

/-- Case-insensitive literal match: pattern given in upper case; returns the
remaining characters on success. -/
def matchCI : List Char → List Char → Option (List Char)
  | [], cs => some cs
  | _, [] => none
  | p :: ps, c :: cs => if c.toUpper = p then matchCI ps cs else none

def isNameChar (c : Char) : Bool := c.isAlphanum || c = '_'

def digitsToNat (ds : List Char) : Nat :=
  ds.foldl (fun a c => a * 10 + (c.toNat - 48)) 0

/-- Python float(s) for the decimal literals produced by the NUMBER
terminal, as a rational. -/
def parseFloat (s : String) : ℚ :=
  let cs := s.data
  let ip := cs.takeWhile (fun c => c.isDigit)
  let rest := cs.dropWhile (fun c => c.isDigit)
  match rest with
  | [] => (digitsToNat ip : ℚ)
  | _ :: fp =>
      let fd := fp.takeWhile (fun c => c.isDigit)
      (digitsToNat ip : ℚ) + (digitsToNat fd : ℚ) / ((10 : ℚ) ^ fd.length)

/-- Classify a scanned name: AND/OR case-insensitively, the CROSS keywords
case-sensitively, otherwise CNAME.  The token keeps its original text. -/
def classifyName (s : String) (i : Nat) : PTok :=
  if strUpper s = "AND" then ⟨.andKw, s, i⟩
  else if strUpper s = "OR" then ⟨.orKw, s, i⟩
  else if s = "CROSSOVER" then ⟨.crossoverKw, s, i⟩
  else if s = "CROSSUNDER" then ⟨.crossunderKw, s, i⟩
  else if s = "CROSS" then ⟨.crossKw, s, i⟩
  else ⟨.cnameTok, s, i⟩

def tokenizeAux : Nat → List Char → Nat → Except PErr (List PTok)
  | 0, _, i => .error ⟨i, "lexer fuel exhausted"⟩
  | _ + 1, [], _ => .ok []
  | fuel + 1, c :: cs, i =>
    if c.isWhitespace then tokenizeAux fuel cs (i + 1)
    else match matchCI "ENTRY:".data (c :: cs) with
    | some rest => do
        let ts ← tokenizeAux fuel rest (i + 6)
        .ok (⟨.entryKw, "ENTRY:", i⟩ :: ts)
    | none => match matchCI "EXIT:".data (c :: cs) with
    | some rest => do
        let ts ← tokenizeAux fuel rest (i + 5)
        .ok (⟨.exitKw, "EXIT:", i⟩ :: ts)
    | none => match matchCI ">=".data (c :: cs) with
    | some rest => do
        let ts ← tokenizeAux fuel rest (i + 2)
        .ok (⟨.compOp, ">=", i⟩ :: ts)
    | none => match matchCI "<=".data (c :: cs) with
    | some rest => do
        let ts ← tokenizeAux fuel rest (i + 2)
        .ok (⟨.compOp, "<=", i⟩ :: ts)
    | none => match matchCI "==".data (c :: cs) with
    | some rest => do
        let ts ← tokenizeAux fuel rest (i + 2)
        .ok (⟨.compOp, "==", i⟩ :: ts)
    | none =>
    if c = '>' || c = '<' then do
        let ts ← tokenizeAux fuel cs (i + 1)
        .ok (⟨.compOp, String.mk [c], i⟩ :: ts)
    else if c = '(' then do
        let ts ← tokenizeAux fuel cs (i + 1)
        .ok (⟨.lpar, "(", i⟩ :: ts)
    else if c = ')' then do
        let ts ← tokenizeAux fuel cs (i + 1)
        .ok (⟨.rpar, ")", i⟩ :: ts)
    else if c = ',' then do
        let ts ← tokenizeAux fuel cs (i + 1)
        .ok (⟨.commaTok, ",", i⟩ :: ts)
    else if c.isDigit then
        let ds := (c :: cs).takeWhile (fun d => d.isDigit)
        let rest := (c :: cs).dropWhile (fun d => d.isDigit)
        match rest with
        | '.' :: rest2 =>
            let fd := rest2.takeWhile (fun d => d.isDigit)
            let rest3 := rest2.dropWhile (fun d => d.isDigit)
            let txt := String.mk (ds ++ '.' :: fd)
            do
              let ts ← tokenizeAux fuel rest3 (i + txt.length)
              .ok (⟨.numberTok, txt, i⟩ :: ts)
        | _ =>
            let txt := String.mk ds
            do
              let ts ← tokenizeAux fuel rest (i + txt.length)
              .ok (⟨.numberTok, txt, i⟩ :: ts)
    else if c.isAlpha || c = '_' then
        let nm := (c :: cs).takeWhile isNameChar
        let rest := (c :: cs).dropWhile isNameChar
        let txt := String.mk nm
        do
          let ts ← tokenizeAux fuel rest (i + txt.length)
          .ok (classifyName txt i :: ts)
    else .error ⟨i, "unexpected character"⟩

def tokenize (s : String) : Except PErr (List PTok) :=
  tokenizeAux (s.length + 1) s.data 0

/-! ## Transformer callbacks

AstTransformer of dsl_parser.py.  With Lark's LALR parser the `(OP term)*`
repetitions hand the callback one flat children list, named terminals
included; the AND/OR token methods replace the token by token.value.  An
item is therefore either an AST node or a token-value string. -/

inductive TransItem where
  | node (e : AstExpr)
  | tokv (s : String)
deriving Repr

/-- AstTransformer.or_expr.  One item passes through.  Otherwise the source
runs `left, op, right = items` (ValueError unless exactly three items) and
then `LogicalOperation(op, left, right)` - three positional arguments to a
two-parameter constructor, which always raises TypeError. -/
def orExprCb (items : List TransItem) : Except PErr TransItem :=
  match items with
  | [x] => .ok x
  | [_, _, _] =>
      .error ⟨0, "TypeError: LogicalOperation() takes 2 positional arguments"⟩
  | _ => .error ⟨0, "ValueError: too many values to unpack"⟩

/-- AstTransformer.and_expr.  One item passes through; exactly three items
unpack as left, op, right, and if left is already a LogicalOperation with
the same operator string the source appends right to its operand list
(mutating the node; modelled functionally) else builds
LogicalOperation(op, [left, right]); any other item count raises ValueError
in the unpacking. -/
def andExprCb (items : List TransItem) : Except PErr TransItem :=
  match items with
  | [x] => .ok x
  | [.node left, .tokv op, .node right] =>
      match left with
      | .logicalOperation lop opnds =>
          if lop = op then
            .ok (.node (.logicalOperation lop (opnds ++ [right])))
          else
            .ok (.node (.logicalOperation op [left, right]))
      | _ => .ok (.node (.logicalOperation op [left, right]))
  | [_, _, _] => .error ⟨0, "TypeError: bad children"⟩
  | _ => .error ⟨0, "ValueError: too many values to unpack"⟩

/-! ## Recursive-descent model of the LALR grammar

The grammar of dsl_parser.py is deterministic; each alternative is selected
by its first one or two tokens, so recursive descent accepts exactly the
same inputs as the generated LALR parser.  Callbacks run at the reduction
points.  Recursion is fuelled; the fuel supplied by parseCore is large
enough that honest inputs never exhaust it. -/

def expectKind (k : TokKind) (toks : List PTok) : Except PErr (PTok × List PTok) :=
  match toks with
  | [] => .error ⟨0, "unexpected end of input"⟩
  | t :: rest => if t.kind = k then .ok (t, rest) else .error ⟨t.pos, "unexpected token"⟩

mutual

/-- atom := indicator | CNAME -> identifier | NUMBER -> number. -/
def parseAtomF : Nat → List PTok → Except PErr (AstExpr × List PTok)
  | 0, _ => .error ⟨0, "parser fuel exhausted"⟩
  | fuel + 1, toks =>
    match toks with
    | ⟨.cnameTok, nm, _⟩ :: ⟨.lpar, _, _⟩ :: rest => do
        let (args, rest2) ← parseIndArgsF fuel rest
        let (_, rest3) ← expectKind .rpar rest2
        .ok (mkIndicator nm args, rest3)
    | ⟨.cnameTok, nm, _⟩ :: rest => .ok (.identifier nm, rest)
    | ⟨.numberTok, v, _⟩ :: rest => .ok (.number (parseFloat v), rest)
    | [] => .error ⟨0, "unexpected end of input"⟩
    | t :: _ => .error ⟨t.pos, "unexpected token"⟩
termination_by structural fuel toks => fuel

/-- Argument list of indicator := CNAME "(" [atom ("," atom)*] ")". -/
def parseIndArgsF : Nat → List PTok → Except PErr (List AstExpr × List PTok)
  | 0, _ => .error ⟨0, "parser fuel exhausted"⟩
  | fuel + 1, toks =>
    match toks with
    | ⟨.rpar, _, _⟩ :: _ => .ok ([], toks)
    | _ => do
        let (a, rest) ← parseAtomF fuel toks
        let (more, rest2) ← parseIndArgsTailF fuel rest
        .ok (a :: more, rest2)
termination_by structural fuel toks => fuel

def parseIndArgsTailF : Nat → List PTok → Except PErr (List AstExpr × List PTok)
  | 0, _ => .error ⟨0, "parser fuel exhausted"⟩
  | fuel + 1, toks =>
    match toks with
    | ⟨.commaTok, _, _⟩ :: rest => do
        let (a, rest2) ← parseAtomF fuel rest
        let (more, rest3) ← parseIndArgsTailF fuel rest2
        .ok (a :: more, rest3)
    | _ => .ok ([], toks)
termination_by structural fuel toks => fuel

/-- comparison := crossover_expr | crossunder_expr | cross_expr
| simple_comp | "(" expression ")".  The cross forms and simple_comp apply
their callbacks directly (Cross/CrossOver/CrossUnder/Comparison). -/
def parseComparisonF : Nat → List PTok → Except PErr (AstExpr × List PTok)
  | 0, _ => .error ⟨0, "parser fuel exhausted"⟩
  | fuel + 1, toks =>
    match toks with
    | ⟨.crossoverKw, _, _⟩ :: rest => do
        let (_, r1) ← expectKind .lpar rest
        let (a, r2) ← parseAtomF fuel r1
        let (_, r3) ← expectKind .commaTok r2
        let (b, r4) ← parseAtomF fuel r3
        let (_, r5) ← expectKind .rpar r4
        .ok (.crossOver a b, r5)
    | ⟨.crossunderKw, _, _⟩ :: rest => do
        let (_, r1) ← expectKind .lpar rest
        let (a, r2) ← parseAtomF fuel r1
        let (_, r3) ← expectKind .commaTok r2
        let (b, r4) ← parseAtomF fuel r3
        let (_, r5) ← expectKind .rpar r4
        .ok (.crossUnder a b, r5)
    | ⟨.crossKw, _, _⟩ :: rest => do
        let (_, r1) ← expectKind .lpar rest
        let (a, r2) ← parseAtomF fuel r1
        let (_, r3) ← expectKind .commaTok r2
        let (b, r4) ← parseAtomF fuel r3
        let (_, r5) ← expectKind .rpar r4
        .ok (.cross a b, r5)
    | ⟨.lpar, _, _⟩ :: rest => do
        let (e, r1) ← parseOrF fuel rest
        let (_, r2) ← expectKind .rpar r1
        .ok (e, r2)
    | _ => do
        let (a, r1) ← parseAtomF fuel toks
        let (op, r2) ← expectKind .compOp r1
        let (b, r3) ← parseAtomF fuel r2
        .ok (.comparison op.val a b, r3)
termination_by structural fuel toks => fuel

/-- and_expr := comparison (AND comparison)*, then the and_expr callback on
the flat children list. -/
def parseAndF : Nat → List PTok → Except PErr (AstExpr × List PTok)
  | 0, _ => .error ⟨0, "parser fuel exhausted"⟩
  | fuel + 1, toks => do
      let (c, rest) ← parseComparisonF fuel toks
      let (items, rest2) ← parseAndTailF fuel rest
      let it ← andExprCb (.node c :: items)
      match it with
      | .node e => .ok (e, rest2)
      | .tokv _ => .error ⟨0, "InternalError: token result"⟩
termination_by structural fuel toks => fuel

def parseAndTailF : Nat → List PTok → Except PErr (List TransItem × List PTok)
  | 0, _ => .error ⟨0, "parser fuel exhausted"⟩
  | fuel + 1, toks =>
    match toks with
    | ⟨.andKw, v, _⟩ :: rest => do
        let (c, rest2) ← parseComparisonF fuel rest
        let (more, rest3) ← parseAndTailF fuel rest2
        .ok (.tokv v :: .node c :: more, rest3)
    | _ => .ok ([], toks)
termination_by structural fuel toks => fuel

/-- or_expr := and_expr (OR and_expr)*, then the or_expr callback on the
flat children list. -/
def parseOrF : Nat → List PTok → Except PErr (AstExpr × List PTok)
  | 0, _ => .error ⟨0, "parser fuel exhausted"⟩
  | fuel + 1, toks => do
      let (a, rest) ← parseAndF fuel toks
      let (items, rest2) ← parseOrTailF fuel rest
      let it ← orExprCb (.node a :: items)
      match it with
      | .node e => .ok (e, rest2)
      | .tokv _ => .error ⟨0, "InternalError: token result"⟩
termination_by structural fuel toks => fuel

def parseOrTailF : Nat → List PTok → Except PErr (List TransItem × List PTok)
  | 0, _ => .error ⟨0, "parser fuel exhausted"⟩
  | fuel + 1, toks =>
    match toks with
    | ⟨.orKw, v, _⟩ :: rest => do
        let (a, rest2) ← parseAndF fuel rest
        let (more, rest3) ← parseOrTailF fuel rest2
        .ok (.tokv v :: .node a :: more, rest3)
    | _ => .ok ([], toks)
termination_by structural fuel toks => fuel

end

/-- rule := "ENTRY:" expression -> entry_rule | "EXIT:" expression ->
exit_rule; the keyword literal is filtered, so the callbacks receive the
expression alone. -/
def parseRuleF : Nat → List PTok → Except PErr (AstRule × List PTok)
  | 0, _ => .error ⟨0, "parser fuel exhausted"⟩
  | fuel + 1, toks =>
    match toks with
    | ⟨.entryKw, _, _⟩ :: rest => do
        let (e, rest2) ← parseOrF fuel rest
        .ok (.entryRule e, rest2)
    | ⟨.exitKw, _, _⟩ :: rest => do
        let (e, rest2) ← parseOrF fuel rest
        .ok (.exitRule e, rest2)
    | [] => .error ⟨0, "unexpected end of input"⟩
    | t :: _ => .error ⟨t.pos, "unexpected token"⟩

def parseRulesTailF : Nat → List PTok → Except PErr (List AstRule × List PTok)
  | 0, _ => .error ⟨0, "parser fuel exhausted"⟩
  | fuel + 1, toks =>
    match toks with
    | ⟨.entryKw, _, _⟩ :: _ => do
        let (r, rest) ← parseRuleF fuel toks
        let (more, rest2) ← parseRulesTailF fuel rest
        .ok (r :: more, rest2)
    | ⟨.exitKw, _, _⟩ :: _ => do
        let (r, rest) ← parseRuleF fuel toks
        let (more, rest2) ← parseRulesTailF fuel rest
        .ok (r :: more, rest2)
    | _ => .ok ([], toks)

/-- strategy := rule+ with the strategy callback Strategy(items); the whole
token stream must be consumed (Lark rejects trailing input). -/
def parseStrategyF (fuel : Nat) (toks : List PTok) : Except PErr AstStrategy := do
  let (r, rest) ← parseRuleF fuel toks
  let (more, rest2) ← parseRulesTailF fuel rest
  match rest2 with
  | [] => .ok ⟨r :: more⟩
  | t :: _ => .error ⟨t.pos, "unexpected token"⟩

/-- The parse done by dsl_parser.parse inside parse_dsl: lex, parse, run the
transformer; any raised error is returned as a value. -/
def parseCore (s : String) : Except PErr AstStrategy := do
  let toks ← tokenize s
  parseStrategyF (4 * toks.length + 8) toks

/-- parse_dsl of dsl_parser.py: returns the AST, or None after printing the
exception (the error value is discarded). -/
def parseDsl (s : String) : Option AstStrategy :=
  match parseCore s with
  | .ok t => some t
  | .error _ => none

example :
    parseDsl "ENTRY: close > 1 AND close > 2" =
      some ⟨[.entryRule (.logicalOperation "AND"
        [.comparison ">" (.identifier "close") (.number 1),
         .comparison ">" (.identifier "close") (.number 2)])]⟩ := by
  rfl

example : parseDsl "ENTRY: close > 1 AND close > 2 AND close > 3" = none := by rfl

example : parseDsl "ENTRY: close > 1 OR close > 2" = none := by rfl

/-! ## Code generator

PandasCodeGenerator of code_generator.py.  The visitor returns the pandas
expression string for a node; visiting an Indicator may extend the
generator state (generated_indicators, indicator_code).  Failures raised by
the Python code (AttributeError on a parameter that is neither Identifier
nor Number, i.e. a nested indicator) are modelled with Except. -/

/-- Mutable state of PandasCodeGenerator: the set of already generated
indicator column names (a Python set, modelled as a duplicate-free list)
and the emitted indicator code lines. -/
structure GenState where
  generated_indicators : List String
  indicator_code : List String
deriving DecidableEq, Repr

/-- str(x) for the Python float stored in a Number node.  Integral floats
print as "n.0" exactly as in Python; non-integral rationals (which no
grammar-produced parameter list ever feeds to this function in the claims
below) are rendered as num/den. -/
def floatStr (q : ℚ) : String :=
  if q.den = 1 then toString q.num ++ ".0"
  else toString q.num ++ "/" ++ toString q.den

/-- sep.join(...) of Python. -/
def joinSep (sep : String) : List String → String
  | [] => ""
  | [x] => x
  | x :: xs => x ++ sep ++ joinSep sep xs

/-- One step of the params_str generator expression in visit_Indicator:
`p.name if isinstance(p, ast.Identifier) else p.value`; any node without a
value attribute (every kind except Identifier and Number) raises
AttributeError. -/
def paramStr : AstExpr → Except String String
  | .identifier n => .ok n
  | .number v => .ok (floatStr v)
  | _ => .error "AttributeError: node has no attribute value"

def paramStrs : List AstExpr → Except String (List String)
  | [] => .ok []
  | p :: ps => do
      let s ← paramStr p
      let ss ← paramStrs ps
      .ok (s :: ss)

/-- params_str of visit_Indicator: underscore-join of the rendered
parameters. -/
def paramsStr (ps : List AstExpr) : Except String String := do
  let ss ← paramStrs ps
  .ok (joinSep "_" ss)

mutual

/-- PandasCodeGenerator.visit / visit_* dispatch.  Every AST node class has
a visitor, so generic_visit is unreachable. -/
def visit : AstExpr → GenState → Except String (String × GenState)
  | .logicalOperation op operands, st => do
      let sep := if op = "AND" then " & " else " | "
      let (codes, st1) ← visitList operands st
      .ok ("(" ++ joinSep sep codes ++ ")", st1)
  | .comparison op l r, st => do
      let (lc, st1) ← visit l st
      let (rc, st2) ← visit r st1
      .ok ("(" ++ lc ++ " " ++ op ++ " " ++ rc ++ ")", st2)
  | .cross l r, st => do
      let (lc, st1) ← visit l st
      let (rc, st2) ← visit r st1
      .ok ("((" ++ lc ++ ") > (" ++ rc ++ ")) & ((" ++ lc ++
           ").shift(1) <= (" ++ rc ++ ").shift(1))", st2)
  | .crossOver l r, st => do
      let (lc, st1) ← visit l st
      let (rc, st2) ← visit r st1
      .ok ("((" ++ lc ++ ") > (" ++ rc ++ ")) & ((" ++ lc ++
           ").shift(1) <= (" ++ rc ++ ").shift(1))", st2)
  | .crossUnder l r, st => do
      let (lc, st1) ← visit l st
      let (rc, st2) ← visit r st1
      .ok ("((" ++ lc ++ ") < (" ++ rc ++ ")) & ((" ++ lc ++
           ").shift(1) >= (" ++ rc ++ ").shift(1))", st2)
  | .indicator name params, st => do
      let ps ← paramsStr params
      let col := strLower name ++ "_" ++ ps
      if col ∈ st.generated_indicators then
        .ok ("df[\x27" ++ col ++ "\x27]", st)
      else do
        let (pcodes, st1) ← visitList params st
        let line := "df[\x27" ++ col ++ "\x27] = indicators." ++
          strLower name ++ "(" ++ joinSep ", " pcodes ++ ")"
        .ok ("df[\x27" ++ col ++ "\x27]",
             ⟨st1.generated_indicators ++ [col], st1.indicator_code ++ [line]⟩)
  | .identifier n, st => .ok ("df[\x27" ++ n ++ "\x27]", st)
  | .number v, st => .ok (floatStr v, st)
termination_by structural e st => e

/-- Sequential visits of a node list (the Python list comprehensions in
visit_LogicalOperation and visit_Indicator). -/
def visitList : List AstExpr → GenState → Except String (List String × GenState)
  | [], st => .ok ([], st)
  | e :: es, st => do
      let (c, st1) ← visit e st
      let (cs, st2) ← visitList es st1
      .ok (c :: cs, st2)
termination_by structural es st => es

end

/-- The rule loop of PandasCodeGenerator.generate: entry_code and exit_code
start as "False" and every EntryRule/ExitRule overwrites the respective
accumulator with the code of its condition. -/
def generateRules : List AstRule → GenState → String → String →
    Except String (GenState × String × String)
  | [], st, en, ex => .ok (st, en, ex)
  | .entryRule c :: rs, st, _, ex => do
      let (code, st1) ← visit c st
      generateRules rs st1 code ex
  | .exitRule c :: rs, st, en, _ => do
      let (code, st1) ← visit c st
      generateRules rs st1 en code

/-- PandasCodeGenerator.generate: fresh state, run the rule loop.  Returns
the final generator state together with the entry and exit code strings;
the returned dictionary of the source holds the newline-join of
indicator_code plus the two strings. -/
def generateSt (s : AstStrategy) : Except String (GenState × String × String) :=
  generateRules s.rules ⟨[], []⟩ "False" "False"

example :
    generateSt ⟨[.entryRule (.crossOver (mkIndicator "sma" [.identifier "close", .number 10])
                                        (mkIndicator "SMA" [.identifier "close", .number 30]))]⟩ =
      .ok (⟨["sma_close_10.0", "sma_close_30.0"],
            ["df[\x27sma_close_10.0\x27] = indicators.sma(df[\x27close\x27], 10.0)",
             "df[\x27sma_close_30.0\x27] = indicators.sma(df[\x27close\x27], 30.0)"]⟩,
           "((df[\x27sma_close_10.0\x27]) > (df[\x27sma_close_30.0\x27])) & ((df[\x27sma_close_10.0\x27]).shift(1) <= (df[\x27sma_close_30.0\x27]).shift(1))",
           "False") := by
  rfl

/-! ## State-free view of the generated expression strings

The string a visit returns depends only on the node, not on the generator
state (the state only decides whether an indicator line is emitted).  The
pure renderer below is proved to agree with visit on every successful
visit; it lets the rule-overwriting semantics of generate be stated without
mentioning intermediate states. -/

mutual

def visitCode : AstExpr → Except String String
  | .logicalOperation op operands => do
      let sep := if op = "AND" then " & " else " | "
      let codes ← visitCodeList operands
      .ok ("(" ++ joinSep sep codes ++ ")")
  | .comparison op l r => do
      let lc ← visitCode l
      let rc ← visitCode r
      .ok ("(" ++ lc ++ " " ++ op ++ " " ++ rc ++ ")")
  | .cross l r => do
      let lc ← visitCode l
      let rc ← visitCode r
      .ok ("((" ++ lc ++ ") > (" ++ rc ++ ")) & ((" ++ lc ++
           ").shift(1) <= (" ++ rc ++ ").shift(1))")
  | .crossOver l r => do
      let lc ← visitCode l
      let rc ← visitCode r
      .ok ("((" ++ lc ++ ") > (" ++ rc ++ ")) & ((" ++ lc ++
           ").shift(1) <= (" ++ rc ++ ").shift(1))")
  | .crossUnder l r => do
      let lc ← visitCode l
      let rc ← visitCode r
      .ok ("((" ++ lc ++ ") < (" ++ rc ++ ")) & ((" ++ lc ++
           ").shift(1) >= (" ++ rc ++ ").shift(1))")
  | .indicator name params => do
      let ps ← paramsStr params
      let col := strLower name ++ "_" ++ ps
      .ok ("df[\x27" ++ col ++ "\x27]")
  | .identifier n => .ok ("df[\x27" ++ n ++ "\x27]")
  | .number v => .ok (floatStr v)
termination_by structural e => e

def visitCodeList : List AstExpr → Except String (List String)
  | [] => .ok []
  | e :: es => do
      let c ← visitCode e
      let cs ← visitCodeList es
      .ok (c :: cs)
termination_by structural es => es

end

/-- The memoization key (generated column name) of an Indicator node, using
a defaulted parameter rendering; wherever it is used below, a success
hypothesis on paramsStr guarantees the default branch is never taken. -/
def paramStrD : AstExpr → String
  | .identifier n => n
  | .number v => floatStr v
  | _ => ""

def keyOf (name : String) (params : List AstExpr) : String :=
  strLower name ++ "_" ++ joinSep "_" (params.map paramStrD)

mutual

/-- Memoization keys of all Indicator sub-expressions of a node, in visit
order. -/
def exprKeys : AstExpr → List String
  | .logicalOperation _ operands => exprKeysList operands
  | .comparison _ l r => exprKeys l ++ exprKeys r
  | .cross l r => exprKeys l ++ exprKeys r
  | .crossOver l r => exprKeys l ++ exprKeys r
  | .crossUnder l r => exprKeys l ++ exprKeys r
  | .indicator name params => keyOf name params :: exprKeysList params
  | .identifier _ => []
  | .number _ => []
termination_by structural e => e

def exprKeysList : List AstExpr → List String
  | [] => []
  | e :: es => exprKeys e ++ exprKeysList es
termination_by structural es => es

end

def ruleCond : AstRule → AstExpr
  | .entryRule c => c
  | .exitRule c => c

def rulesKeys (rs : List AstRule) : List String :=
  match rs with
  | [] => []
  | r :: rest => exprKeys (ruleCond r) ++ rulesKeys rest

/-- Memoization keys of every rule condition of a strategy (generate visits
every rule, also the overwritten ones). -/
def stratKeys (s : AstStrategy) : List String := rulesKeys s.rules

mutual

/-- Number of sub-expression occurrences satisfying a predicate. -/
def countNodes (p : AstExpr → Bool) : AstExpr → Nat
  | .logicalOperation op operands =>
      (if p (.logicalOperation op operands) then 1 else 0) + countNodesList p operands
  | .comparison op l r =>
      (if p (.comparison op l r) then 1 else 0) + countNodes p l + countNodes p r
  | .cross l r => (if p (.cross l r) then 1 else 0) + countNodes p l + countNodes p r
  | .crossOver l r => (if p (.crossOver l r) then 1 else 0) + countNodes p l + countNodes p r
  | .crossUnder l r => (if p (.crossUnder l r) then 1 else 0) + countNodes p l + countNodes p r
  | .indicator name params =>
      (if p (.indicator name params) then 1 else 0) + countNodesList p params
  | .identifier n => if p (.identifier n) then 1 else 0
  | .number v => if p (.number v) then 1 else 0
termination_by structural e => e

def countNodesList (p : AstExpr → Bool) : List AstExpr → Nat
  | [] => 0
  | e :: es => countNodes p e + countNodesList p es
termination_by structural es => es

end

/-- Occurrences of a sub-expression across all rule conditions of a
strategy. -/
def countNodesStrat (p : AstExpr → Bool) (s : AstStrategy) : Nat :=
  (s.rules.map (fun r => countNodes p (ruleCond r))).sum

/-- Condition of the last EntryRule of a rule list, if any. -/
def lastEntryCond : List AstRule → Option AstExpr
  | [] => none
  | .entryRule c :: rs =>
      match lastEntryCond rs with
      | some c2 => some c2
      | none => some c
  | .exitRule _ :: rs => lastEntryCond rs

/-- Condition of the last ExitRule of a rule list, if any. -/
def lastExitCond : List AstRule → Option AstExpr
  | [] => none
  | .exitRule c :: rs =>
      match lastExitCond rs with
      | some c2 => some c2
      | none => some c
  | .entryRule _ :: rs => lastExitCond rs

/-! ## Pandas semantics of the generated cross expressions

The entry/exit code built by visit_Cross / visit_CrossOver is
`((l) > (r)) & ((l).shift(1) <= (r).shift(1))` evaluated by pandas on
numeric columns: shift(1) moves every element one index later and leaves
NaN at index 0, and every comparison against NaN is false. -/

/-- pandas Series.shift(1) on a numeric column (NaN as none). -/
def shift1 (l : List ℚ) : List (Option ℚ) :=
  (none :: l.map some).take l.length

/-- Elementwise `<=` where any NaN operand compares false. -/
def optLe (a b : Option ℚ) : Bool :=
  match a, b with
  | some x, some y => decide (x ≤ y)
  | _, _ => false

/-- Elementwise semantics of the code emitted by visit_CrossOver. -/
def crossOverEval (l r : List ℚ) : List Bool :=
  List.zipWith (fun a b => a && b)
    (List.zipWith (fun x y => decide (y < x)) l r)
    (List.zipWith optLe (shift1 l) (shift1 r))

/-- Elementwise semantics of the code emitted by visit_Cross (the source
method bodies are identical). -/
def crossEval (l r : List ℚ) : List Bool :=
  List.zipWith (fun a b => a && b)
    (List.zipWith (fun x y => decide (y < x)) l r)
    (List.zipWith optLe (shift1 l) (shift1 r))

example : crossOverEval [1, 3, 2, 5] [2, 2, 3, 3] = [false, true, false, true] := by decide

/-! ## Backtest simulation

The simulation loop of run_backtest in backtest.py, over rows that already
carry the evaluated entry/exit signal columns.  The Python loop mutates
holding / equity / entry_price / entry_date / trades / equity_curve /
peak_equity / max_drawdown; a SimState carries exactly these. -/

/-- One row of the dataframe inside the loop: Date (as an abstract
timestamp), close, and the materialised entry_signal / exit_signal
columns. -/
structure Row where
  date : Nat
  close : ℚ
  entrySignal : Bool
  exitSignal : Bool
deriving DecidableEq, Repr

/-- One element of the trades list. -/
structure Trade where
  entry_date : Nat
  exit_date : Nat
  entry_price : ℚ
  exit_price : ℚ
  profit : ℚ
deriving DecidableEq, Repr

structure SimState where
  holding : Bool
  equity : ℚ
  entry_price : ℚ
  entry_date : Nat
  trades : List Trade
  equity_curve : List ℚ
  peak_equity : ℚ
  max_drawdown : ℚ
deriving DecidableEq, Repr

/-- First if of the loop body: exit signal while holding sells at the
close. -/
def exitStep (st : SimState) (row : Row) : SimState :=
  if row.exitSignal && st.holding then
    let exit_price := row.close
    let profit := exit_price - st.entry_price
    { st with
      equity := st.equity + profit,
      trades := st.trades ++
        [⟨st.entry_date, row.date, st.entry_price, exit_price, profit⟩],
      holding := false,
      entry_price := 0 }
  else st

/-- Second if of the loop body: entry signal while flat buys at the
close. -/
def entryStep (st : SimState) (row : Row) : SimState :=
  if row.entrySignal && !st.holding then
    { st with
      entry_price := row.close,
      entry_date := row.date,
      holding := true }
  else st

/-- Mark-to-market value computed after the two signal branches:
equity plus unrealised profit of an open position. -/
def markToMarket (st : SimState) (row : Row) : ℚ :=
  st.equity + (if st.holding then row.close - st.entry_price else 0)

/-- Equity-curve / peak / drawdown bookkeeping at the end of the loop
body. -/
def bookKeep (st : SimState) (row : Row) : SimState :=
  let current := markToMarket st row
  let peak := if current > st.peak_equity then current else st.peak_equity
  let dd := (peak - current) / peak
  let mdd := if dd > st.max_drawdown then dd else st.max_drawdown
  { st with
    equity_curve := st.equity_curve ++ [current],
    peak_equity := peak,
    max_drawdown := mdd }

/-- One iteration of `for i, row in df.iterrows()`. -/
def simStep (st : SimState) (row : Row) : SimState :=
  bookKeep (entryStep (exitStep st row) row) row

/-- State before the loop. -/
def initSimState (initial_capital : ℚ) : SimState :=
  ⟨false, initial_capital, 0, 0, [], [], initial_capital, 0⟩

/-- The forced close after the loop when still holding, at the last row's
close. -/
def forceClose (rows : List Row) (st : SimState) : SimState :=
  if st.holding then
    match rows.getLast? with
    | some lastRow =>
        let profit := lastRow.close - st.entry_price
        { st with
          equity := st.equity + profit,
          trades := st.trades ++
            [⟨st.entry_date, lastRow.date, st.entry_price, lastRow.close, profit⟩] }
    | none => st
  else st

/-- The results dictionary of run_backtest. -/
structure SimResult where
  initial_capital : ℚ
  final_equity : ℚ
  total_profit : ℚ
  profit_percent : ℚ
  max_drawdown : ℚ
  num_trades : Nat
  num_wins : Nat
  win_rate : ℚ
  trades : List Trade
  equity_curve : List ℚ
deriving DecidableEq, Repr

/-- run_backtest of backtest.py from the point where the signal columns
exist: the sequential simulation loop, the forced close, and the
performance calculation. -/
def runSim (rows : List Row) (initial_capital : ℚ) : SimResult :=
  let st := rows.foldl simStep (initSimState initial_capital)
  let st := forceClose rows st
  let final_equity := st.equity
  let total_profit := final_equity - initial_capital
  let profit_percent := total_profit / initial_capital * 100
  let num_trades := st.trades.length
  let num_wins := (st.trades.filter (fun t => 0 < t.profit)).length
  let win_rate := if 0 < num_trades then ((num_wins : ℚ) / (num_trades : ℚ)) * 100 else 0
  ⟨initial_capital, final_equity, total_profit, profit_percent,
   st.max_drawdown, num_trades, num_wins, win_rate, st.trades, st.equity_curve⟩

example :
    (runSim [⟨0, 10, true, false⟩, ⟨1, 11, false, false⟩, ⟨2, 9, false, true⟩,
             ⟨3, 12, false, false⟩, ⟨4, 8, false, false⟩] 10000).final_equity = 9999 := by
  norm_num [runSim, simStep, bookKeep, entryStep, exitStep, markToMarket,
    initSimState, forceClose, List.foldl]

example :
    (runSim [⟨0, 10, true, false⟩, ⟨1, 11, false, false⟩, ⟨2, 9, false, true⟩,
             ⟨3, 12, false, false⟩, ⟨4, 8, false, false⟩] 10000).trades =
      [⟨0, 2, 10, 9, -1⟩] := by
  norm_num [runSim, simStep, bookKeep, entryStep, exitStep, markToMarket,
    initSimState, forceClose, List.foldl]

/-! ## Generator lemmas -/

@[simp] theorem except_bind_ok {ε α β : Type} (a : α) (f : α → Except ε β) :
    (Except.ok a >>= f) = f a := rfl

@[simp] theorem except_bind_error {ε α β : Type} (e : ε) (f : α → Except ε β) :
    ((Except.error e : Except ε α) >>= f) = Except.error e := rfl

theorem paramStr_exprKeys {p : AstExpr} {s : String} (h : paramStr p = .ok s) :
    exprKeys p = [] := by
  cases p <;> simp_all [paramStr, exprKeys]

theorem paramStrs_exprKeysList {ps : List AstExpr} {ss : List String}
    (h : paramStrs ps = .ok ss) : exprKeysList ps = [] := by
  induction ps generalizing ss with
  | nil => simp [exprKeysList]
  | cons p ps ih =>
      cases hp : paramStr p with
      | error e => simp [paramStrs, hp, Except.bind] at h
      | ok s =>
          cases hps : paramStrs ps with
          | error e => simp [paramStrs, hp, hps, Except.bind] at h
          | ok ss2 =>
              simp [exprKeysList, paramStr_exprKeys hp, ih hps]

theorem paramStr_paramStrD {p : AstExpr} {s : String} (h : paramStr p = .ok s) :
    s = paramStrD p := by
  cases p <;> simp_all [paramStr, paramStrD]

theorem paramStrs_paramStrD {ps : List AstExpr} {ss : List String}
    (h : paramStrs ps = .ok ss) : ss = ps.map paramStrD := by
  induction ps generalizing ss with
  | nil => simp [paramStrs] at h; simp [h]
  | cons p ps ih =>
      cases hp : paramStr p with
      | error e => simp [paramStrs, hp, Except.bind] at h
      | ok s =>
          cases hps : paramStrs ps with
          | error e => simp [paramStrs, hp, hps, Except.bind] at h
          | ok ss2 =>
              simp [paramStrs, hp, hps, Except.bind] at h
              simp [← h, List.map, paramStr_paramStrD hp, ih hps]

theorem paramStr_visit {p : AstExpr} {s : String} (h : paramStr p = .ok s)
    (st : GenState) : ∃ c, visit p st = .ok (c, st) := by
  cases p <;> simp_all [paramStr, visit]

theorem paramStrs_visitList {ps : List AstExpr} {ss : List String}
    (h : paramStrs ps = .ok ss) (st : GenState) :
    ∃ cs, visitList ps st = .ok (cs, st) := by
  induction ps generalizing ss st with
  | nil => exact ⟨[], by simp [visitList]⟩
  | cons p ps ih =>
      cases hp : paramStr p with
      | error e => simp [paramStrs, hp, Except.bind] at h
      | ok s =>
          cases hps : paramStrs ps with
          | error e => simp [paramStrs, hp, hps, Except.bind] at h
          | ok ss2 =>
              obtain ⟨c, hc⟩ := paramStr_visit hp st
              obtain ⟨cs, hcs⟩ := ih hps st
              exact ⟨c :: cs, by simp [visitList, hc, hcs, Except.bind]⟩

mutual

/-- The expression string a successful visit returns is the state-free
rendering of the node. -/
theorem visit_code : ∀ (e : AstExpr) (st : GenState) (c : String) (st' : GenState),
    visit e st = .ok (c, st') → visitCode e = .ok c
  | .logicalOperation op operands, st, c, st', h => by
      simp only [visit] at h
      cases hv : visitList operands st with
      | error err => rw [hv] at h; simp at h
      | ok p =>
          obtain ⟨codes, st1⟩ := p
          rw [hv] at h; simp at h
          simp only [visitCode, visitList_code operands st codes st1 hv]
          simp [h.1]
  | .comparison op l r, st, c, st', h => by
      simp only [visit] at h
      cases hl : visit l st with
      | error err => rw [hl] at h; simp at h
      | ok p =>
          obtain ⟨lc, st1⟩ := p
          rw [hl] at h; simp at h
          cases hr : visit r st1 with
          | error err => rw [hr] at h; simp at h
          | ok q =>
              obtain ⟨rc, st2⟩ := q
              rw [hr] at h; simp at h
              simp only [visitCode, visit_code l st lc st1 hl,
                visit_code r st1 rc st2 hr]
              simp [h.1]
  | .cross l r, st, c, st', h => by
      simp only [visit] at h
      cases hl : visit l st with
      | error err => rw [hl] at h; simp at h
      | ok p =>
          obtain ⟨lc, st1⟩ := p
          rw [hl] at h; simp at h
          cases hr : visit r st1 with
          | error err => rw [hr] at h; simp at h
          | ok q =>
              obtain ⟨rc, st2⟩ := q
              rw [hr] at h; simp at h
              simp only [visitCode, visit_code l st lc st1 hl,
                visit_code r st1 rc st2 hr]
              simp [h.1]
  | .crossOver l r, st, c, st', h => by
      simp only [visit] at h
      cases hl : visit l st with
      | error err => rw [hl] at h; simp at h
      | ok p =>
          obtain ⟨lc, st1⟩ := p
          rw [hl] at h; simp at h
          cases hr : visit r st1 with
          | error err => rw [hr] at h; simp at h
          | ok q =>
              obtain ⟨rc, st2⟩ := q
              rw [hr] at h; simp at h
              simp only [visitCode, visit_code l st lc st1 hl,
                visit_code r st1 rc st2 hr]
              simp [h.1]
  | .crossUnder l r, st, c, st', h => by
      simp only [visit] at h
      cases hl : visit l st with
      | error err => rw [hl] at h; simp at h
      | ok p =>
          obtain ⟨lc, st1⟩ := p
          rw [hl] at h; simp at h
          cases hr : visit r st1 with
          | error err => rw [hr] at h; simp at h
          | ok q =>
              obtain ⟨rc, st2⟩ := q
              rw [hr] at h; simp at h
              simp only [visitCode, visit_code l st lc st1 hl,
                visit_code r st1 rc st2 hr]
              simp [h.1]
  | .indicator name params, st, c, st', h => by
      simp only [visit] at h
      cases hps : paramsStr params with
      | error err => rw [hps] at h; simp at h
      | ok ps =>
          rw [hps] at h; simp at h
          simp only [visitCode, hps]
          by_cases hmem : strLower name ++ "_" ++ ps ∈ st.generated_indicators
          · simp [hmem] at h
            simp [h.1]
          · simp [hmem] at h
            cases hv : visitList params st with
            | error err => rw [hv] at h; simp at h
            | ok q =>
                obtain ⟨pcodes, st1⟩ := q
                rw [hv] at h; simp at h
                simp [h.1]
  | .identifier n, st, c, st', h => by
      simp only [visit] at h
      simp only [visitCode]
      simp at h
      simp [h.1]
  | .number v, st, c, st', h => by
      simp only [visit] at h
      simp only [visitCode]
      simp at h
      simp [h.1]
termination_by structural e st c st' h => e

theorem visitList_code : ∀ (es : List AstExpr) (st : GenState) (cs : List String)
    (st' : GenState), visitList es st = .ok (cs, st') → visitCodeList es = .ok cs
  | [], st, cs, st', h => by
      simp only [visitList] at h
      simp at h
      simp [visitCodeList, h.1]
  | e :: es, st, cs, st', h => by
      simp only [visitList] at h
      cases he : visit e st with
      | error err => rw [he] at h; simp at h
      | ok p =>
          obtain ⟨c, st1⟩ := p
          rw [he] at h; simp at h
          cases hes : visitList es st1 with
          | error err => rw [hes] at h; simp at h
          | ok q =>
              obtain ⟨cs2, st2⟩ := q
              rw [hes] at h; simp at h
              simp only [visitCodeList, visit_code e st c st1 he,
                visitList_code es st1 cs2 st2 hes]
              simp [h.1]
termination_by structural es st cs st' h => es

end

/-- State well-formedness maintained by the generator: the recorded column
names are pairwise distinct and there is exactly one emitted code line per
recorded column. -/
def GenInv (st : GenState) : Prop :=
  st.generated_indicators.Nodup ∧
  st.indicator_code.length = st.generated_indicators.length

mutual

/-- Visiting preserves the generator invariant, and the recorded columns
afterwards are exactly the previous ones plus the keys of the visited
node. -/
theorem visit_inv : ∀ (e : AstExpr) (st : GenState) (c : String) (st' : GenState),
    GenInv st → visit e st = .ok (c, st') →
    GenInv st' ∧ ∀ k, k ∈ st'.generated_indicators ↔
      (k ∈ st.generated_indicators ∨ k ∈ exprKeys e)
  | .logicalOperation op operands, st, c, st', hinv, h => by
      simp only [visit] at h
      cases hv : visitList operands st with
      | error err => rw [hv] at h; simp at h
      | ok p =>
          obtain ⟨codes, st1⟩ := p
          rw [hv] at h; simp at h
          obtain ⟨h1, h2⟩ := visitList_inv operands st codes st1 hinv hv
          rw [← h.2]
          exact ⟨h1, by simp [exprKeys, h2]⟩
  | .comparison op l r, st, c, st', hinv, h => by
      simp only [visit] at h
      cases hl : visit l st with
      | error err => rw [hl] at h; simp at h
      | ok p =>
          obtain ⟨lc, st1⟩ := p
          rw [hl] at h; simp at h
          cases hr : visit r st1 with
          | error err => rw [hr] at h; simp at h
          | ok q =>
              obtain ⟨rc, st2⟩ := q
              rw [hr] at h; simp at h
              obtain ⟨h1, h2⟩ := visit_inv l st lc st1 hinv hl
              obtain ⟨h3, h4⟩ := visit_inv r st1 rc st2 h1 hr
              rw [← h.2]
              refine ⟨h3, fun k => ?_⟩
              simp [exprKeys, h4, h2, or_assoc]
  | .cross l r, st, c, st', hinv, h => by
      simp only [visit] at h
      cases hl : visit l st with
      | error err => rw [hl] at h; simp at h
      | ok p =>
          obtain ⟨lc, st1⟩ := p
          rw [hl] at h; simp at h
          cases hr : visit r st1 with
          | error err => rw [hr] at h; simp at h
          | ok q =>
              obtain ⟨rc, st2⟩ := q
              rw [hr] at h; simp at h
              obtain ⟨h1, h2⟩ := visit_inv l st lc st1 hinv hl
              obtain ⟨h3, h4⟩ := visit_inv r st1 rc st2 h1 hr
              rw [← h.2]
              refine ⟨h3, fun k => ?_⟩
              simp [exprKeys, h4, h2, or_assoc]
  | .crossOver l r, st, c, st', hinv, h => by
      simp only [visit] at h
      cases hl : visit l st with
      | error err => rw [hl] at h; simp at h
      | ok p =>
          obtain ⟨lc, st1⟩ := p
          rw [hl] at h; simp at h
          cases hr : visit r st1 with
          | error err => rw [hr] at h; simp at h
          | ok q =>
              obtain ⟨rc, st2⟩ := q
              rw [hr] at h; simp at h
              obtain ⟨h1, h2⟩ := visit_inv l st lc st1 hinv hl
              obtain ⟨h3, h4⟩ := visit_inv r st1 rc st2 h1 hr
              rw [← h.2]
              refine ⟨h3, fun k => ?_⟩
              simp [exprKeys, h4, h2, or_assoc]
  | .crossUnder l r, st, c, st', hinv, h => by
      simp only [visit] at h
      cases hl : visit l st with
      | error err => rw [hl] at h; simp at h
      | ok p =>
          obtain ⟨lc, st1⟩ := p
          rw [hl] at h; simp at h
          cases hr : visit r st1 with
          | error err => rw [hr] at h; simp at h
          | ok q =>
              obtain ⟨rc, st2⟩ := q
              rw [hr] at h; simp at h
              obtain ⟨h1, h2⟩ := visit_inv l st lc st1 hinv hl
              obtain ⟨h3, h4⟩ := visit_inv r st1 rc st2 h1 hr
              rw [← h.2]
              refine ⟨h3, fun k => ?_⟩
              simp [exprKeys, h4, h2, or_assoc]
  | .indicator name params, st, c, st', hinv, h => by
      simp only [visit] at h
      cases hps : paramsStr params with
      | error err => rw [hps] at h; simp at h
      | ok ps =>
          rw [hps] at h; simp at h
          have hpstrs : ∃ ss, paramStrs params = .ok ss := by
            cases hx : paramStrs params with
            | error err => simp [paramsStr, hx] at hps
            | ok ss => exact ⟨ss, rfl⟩
          obtain ⟨ss, hss⟩ := hpstrs
          have hkeynil : exprKeysList params = [] := paramStrs_exprKeysList hss
          have hpsval : ps = joinSep "_" (params.map paramStrD) := by
            have : ss = params.map paramStrD := paramStrs_paramStrD hss
            simp [paramsStr, hss, this] at hps
            exact hps.symm
          have hcol : strLower name ++ "_" ++ ps = keyOf name params := by
            rw [keyOf, hpsval]
          by_cases hmem : strLower name ++ "_" ++ ps ∈ st.generated_indicators
          · simp [hmem] at h
            rw [← h.2]
            refine ⟨hinv, fun k => ?_⟩
            simp only [exprKeys, hkeynil, List.mem_cons, List.not_mem_nil, or_false]
            constructor
            · exact fun hk => Or.inl hk
            · rintro (hk | hk)
              · exact hk
              · rw [hk, ← hcol]; exact hmem
          · simp [hmem] at h
            cases hv : visitList params st with
            | error err => rw [hv] at h; simp at h
            | ok q =>
                obtain ⟨pcodes, st1⟩ := q
                rw [hv] at h; simp at h
                obtain ⟨cs2, hcs2⟩ := paramStrs_visitList hss st
                have hst1 : st1 = st := by
                  rw [hcs2] at hv
                  exact (Prod.mk.injEq _ _ _ _ ▸ (Except.ok.injEq _ _ ▸ hv)).2.symm
                subst hst1
                rw [← h.2]
                refine ⟨⟨?_, ?_⟩, fun k => ?_⟩
                · simp [List.nodup_append, hinv.1, hmem]
                · simp [hinv.2]
                · simp only [exprKeys, hkeynil, List.mem_cons, List.not_mem_nil,
                    or_false, List.mem_append]
                  rw [← hcol]
  | .identifier n, st, c, st', hinv, h => by
      simp only [visit] at h
      simp at h
      rw [← h.2]
      exact ⟨hinv, by simp [exprKeys]⟩
  | .number v, st, c, st', hinv, h => by
      simp only [visit] at h
      simp at h
      rw [← h.2]
      exact ⟨hinv, by simp [exprKeys]⟩
termination_by structural e st c st' hinv h => e

theorem visitList_inv : ∀ (es : List AstExpr) (st : GenState) (cs : List String)
    (st' : GenState), GenInv st → visitList es st = .ok (cs, st') →
    GenInv st' ∧ ∀ k, k ∈ st'.generated_indicators ↔
      (k ∈ st.generated_indicators ∨ k ∈ exprKeysList es)
  | [], st, cs, st', hinv, h => by
      simp only [visitList] at h
      simp at h
      rw [← h.2]
      exact ⟨hinv, by simp [exprKeysList]⟩
  | e :: es, st, cs, st', hinv, h => by
      simp only [visitList] at h
      cases he : visit e st with
      | error err => rw [he] at h; simp at h
      | ok p =>
          obtain ⟨c, st1⟩ := p
          rw [he] at h; simp at h
          cases hes : visitList es st1 with
          | error err => rw [hes] at h; simp at h
          | ok q =>
              obtain ⟨cs2, st2⟩ := q
              rw [hes] at h; simp at h
              obtain ⟨h1, h2⟩ := visit_inv e st c st1 hinv he
              obtain ⟨h3, h4⟩ := visitList_inv es st1 cs2 st2 h1 hes
              rw [← h.2]
              refine ⟨h3, fun k => ?_⟩
              simp [exprKeysList, h4, h2, or_assoc]
termination_by structural es st cs st' hinv h => es

end

/-- The rule loop preserves the generator invariant and accumulates exactly
the keys of every visited rule condition. -/
theorem generateRules_inv : ∀ (rs : List AstRule) (st : GenState) (en ex : String)
    (st' : GenState) (en' ex' : String), GenInv st →
    generateRules rs st en ex = .ok (st', en', ex') →
    GenInv st' ∧ ∀ k, k ∈ st'.generated_indicators ↔
      (k ∈ st.generated_indicators ∨ k ∈ rulesKeys rs) := by
  intro rs
  induction rs with
  | nil =>
      intro st en ex st' en' ex' hinv h
      simp [generateRules] at h
      rw [← h.1]
      exact ⟨hinv, by simp [rulesKeys]⟩
  | cons r rs ih =>
      intro st en ex st' en' ex' hinv h
      cases r with
      | entryRule c =>
          simp only [generateRules] at h
          cases hc : visit c st with
          | error err => rw [hc] at h; simp at h
          | ok p =>
              obtain ⟨code, st1⟩ := p
              rw [hc] at h; simp at h
              obtain ⟨h1, h2⟩ := visit_inv c st code st1 hinv hc
              obtain ⟨h3, h4⟩ := ih st1 code ex st' en' ex' h1 h
              refine ⟨h3, fun k => ?_⟩
              simp [rulesKeys, ruleCond, h4, h2, or_assoc]
      | exitRule c =>
          simp only [generateRules] at h
          cases hc : visit c st with
          | error err => rw [hc] at h; simp at h
          | ok p =>
              obtain ⟨code, st1⟩ := p
              rw [hc] at h; simp at h
              obtain ⟨h1, h2⟩ := visit_inv c st code st1 hinv hc
              obtain ⟨h3, h4⟩ := ih st1 en code st' en' ex' h1 h
              refine ⟨h3, fun k => ?_⟩
              simp [rulesKeys, ruleCond, h4, h2, or_assoc]

/-- The entry / exit code strings a successful rule loop returns are the
renderings of the condition of the last EntryRule / ExitRule seen, falling
back to the incoming accumulators. -/
theorem generateRules_last : ∀ (rs : List AstRule) (st : GenState) (en ex : String)
    (st' : GenState) (en' ex' : String),
    generateRules rs st en ex = .ok (st', en', ex') →
    (match lastEntryCond rs with
     | some c => visitCode c = .ok en'
     | none => en' = en) ∧
    (match lastExitCond rs with
     | some c => visitCode c = .ok ex'
     | none => ex' = ex) := by
  intro rs
  induction rs with
  | nil =>
      intro st en ex st' en' ex' h
      simp [generateRules] at h
      simp [lastEntryCond, lastExitCond, h.2.1, h.2.2]
  | cons r rs ih =>
      intro st en ex st' en' ex' h
      cases r with
      | entryRule c =>
          simp only [generateRules] at h
          cases hc : visit c st with
          | error err => rw [hc] at h; simp at h
          | ok p =>
              obtain ⟨code, st1⟩ := p
              rw [hc] at h; simp at h
              obtain ⟨h1, h2⟩ := ih st1 code ex st' en' ex' h
              constructor
              · cases hle : lastEntryCond rs with
                | some c2 => simp [lastEntryCond, hle]; rw [hle] at h1; exact h1
                | none =>
                    simp [lastEntryCond, hle]
                    rw [hle] at h1
                    simp at h1
                    rw [h1]
                    exact visit_code c st code st1 hc
              · exact h2
      | exitRule c =>
          simp only [generateRules] at h
          cases hc : visit c st with
          | error err => rw [hc] at h; simp at h
          | ok p =>
              obtain ⟨code, st1⟩ := p
              rw [hc] at h; simp at h
              obtain ⟨h1, h2⟩ := ih st1 en code st' en' ex' h
              constructor
              · exact h1
              · cases hle : lastExitCond rs with
                | some c2 => simp [lastExitCond, hle]; rw [hle] at h2; exact h2
                | none =>
                    simp [lastExitCond, hle]
                    rw [hle] at h2
                    simp at h2
                    rw [h2]
                    exact visit_code c st code st1 hc

/-! ## Crossover semantics lemmas -/

theorem shift1_length (l : List ℚ) : (shift1 l).length = l.length := by
  simp [shift1]

theorem shift1_getElem_zero (l : List ℚ) (h : 0 < (shift1 l).length) :
    (shift1 l)[0] = none := by
  simp [shift1]

theorem shift1_getElem_succ (l : List ℚ) (i : Nat) (h : i + 1 < (shift1 l).length)
    (hi : i < l.length) : (shift1 l)[i + 1] = some l[i] := by
  simp [shift1]

theorem crossOverEval_length (l r : List ℚ) (h : l.length = r.length) :
    (crossOverEval l r).length = l.length := by
  simp [crossOverEval, shift1_length, h]

theorem crossOverEval_getElem (l r : List ℚ) (i : Nat)
    (hi : i < (crossOverEval l r).length) (h1 : i < l.length) (h2 : i < r.length)
    (h3 : i < (shift1 l).length) (h4 : i < (shift1 r).length) :
    (crossOverEval l r)[i] =
      (decide (r[i] < l[i]) && optLe (shift1 l)[i] (shift1 r)[i]) := by
  simp [crossOverEval, List.getElem_zipWith]

theorem crossOverEval_zero (l r : List ℚ) (h : l.length = r.length)
    (h0 : 0 < l.length) : (crossOverEval l r).getD 0 false = false := by
  have hlen : 0 < (crossOverEval l r).length := by
    rw [crossOverEval_length l r h]; exact h0
  rw [List.getD_eq_getElem?_getD, List.getElem?_eq_getElem hlen]
  rw [crossOverEval_getElem l r 0 hlen h0 (h ▸ h0)
    ((shift1_length l).symm ▸ h0) ((shift1_length r).symm ▸ (h ▸ h0))]
  rw [shift1_getElem_zero l ((shift1_length l).symm ▸ h0)]
  simp [optLe]

theorem crossOverEval_pos (l r : List ℚ) (h : l.length = r.length) (i : Nat)
    (hpos : 0 < i) (hi : i < l.length) :
    ((crossOverEval l r).getD i false = true ↔
      (r.getD i 0 < l.getD i 0 ∧ l.getD (i - 1) 0 ≤ r.getD (i - 1) 0)) := by
  obtain ⟨k, rfl⟩ : ∃ k, i = k + 1 := ⟨i - 1, (Nat.succ_pred_eq_of_pos hpos).symm⟩
  have hir : k + 1 < r.length := h ▸ hi
  have hkl : k < l.length := Nat.lt_of_succ_lt hi
  have hkr : k < r.length := Nat.lt_of_succ_lt hir
  have hlen : k + 1 < (crossOverEval l r).length := by
    rw [crossOverEval_length l r h]; exact hi
  have hsl : k + 1 < (shift1 l).length := (shift1_length l).symm ▸ hi
  have hsr : k + 1 < (shift1 r).length := (shift1_length r).symm ▸ hir
  rw [List.getD_eq_getElem?_getD, List.getElem?_eq_getElem hlen]
  rw [crossOverEval_getElem l r (k + 1) hlen hi hir hsl hsr]
  rw [shift1_getElem_succ l k hsl hkl, shift1_getElem_succ r k hsr hkr]
  simp only [Nat.add_sub_cancel]
  rw [List.getD_eq_getElem?_getD l (k + 1), List.getElem?_eq_getElem hi,
    List.getD_eq_getElem?_getD r (k + 1), List.getElem?_eq_getElem hir,
    List.getD_eq_getElem?_getD l k, List.getElem?_eq_getElem hkl,
    List.getD_eq_getElem?_getD r k, List.getElem?_eq_getElem hkr]
  simp [optLe]

/-! ## Simulation lemmas -/

theorem ite_gt_max (a b : ℚ) : (if a > b then a else b) = max b a := by
  rcases lt_or_ge b a with h | h
  · simp [h, max_eq_right h.le]
  · simp [not_lt.mpr h, max_eq_left h]

theorem exitStep_peak (st : SimState) (row : Row) :
    (exitStep st row).peak_equity = st.peak_equity := by
  simp only [exitStep]; split <;> rfl

theorem exitStep_mdd (st : SimState) (row : Row) :
    (exitStep st row).max_drawdown = st.max_drawdown := by
  simp only [exitStep]; split <;> rfl

theorem entryStep_peak (st : SimState) (row : Row) :
    (entryStep st row).peak_equity = st.peak_equity := by
  simp only [entryStep]; split <;> rfl

theorem entryStep_mdd (st : SimState) (row : Row) :
    (entryStep st row).max_drawdown = st.max_drawdown := by
  simp only [entryStep]; split <;> rfl

/-- The drawdown update of one bar, written with the running peak: the new
max_drawdown is the old one maximised with the drawdown of the current
mark-to-market value against the updated peak-to-date. -/
theorem simStep_max_drawdown (st : SimState) (row : Row) :
    (simStep st row).max_drawdown =
      max st.max_drawdown
        ((max st.peak_equity (markToMarket (entryStep (exitStep st row) row) row) -
          markToMarket (entryStep (exitStep st row) row) row) /
         max st.peak_equity (markToMarket (entryStep (exitStep st row) row) row)) := by
  simp only [simStep, bookKeep]
  rw [entryStep_peak, exitStep_peak, entryStep_mdd, exitStep_mdd]
  rw [ite_gt_max, ite_gt_max]

theorem simStep_peak_equity (st : SimState) (row : Row) :
    (simStep st row).peak_equity =
      max st.peak_equity (markToMarket (entryStep (exitStep st row) row) row) := by
  simp only [simStep, bookKeep]
  rw [entryStep_peak, exitStep_peak, ite_gt_max]

theorem simStep_mdd_mono (st : SimState) (row : Row) :
    st.max_drawdown ≤ (simStep st row).max_drawdown := by
  rw [simStep_max_drawdown]; exact le_max_left _ _

theorem foldl_simStep_mdd_mono (l : List Row) (st : SimState) :
    st.max_drawdown ≤ (l.foldl simStep st).max_drawdown := by
  induction l generalizing st with
  | nil => simp
  | cons row l ih =>
      exact le_trans (simStep_mdd_mono st row) (by simpa using ih (simStep st row))

/-- Positivity of the running peak and nonnegativity of the running
drawdown are preserved bar by bar. -/
theorem simStep_inv (st : SimState) (row : Row)
    (h : 0 < st.peak_equity ∧ 0 ≤ st.max_drawdown) :
    0 < (simStep st row).peak_equity ∧ 0 ≤ (simStep st row).max_drawdown := by
  constructor
  · rw [simStep_peak_equity]
    exact lt_of_lt_of_le h.1 (le_max_left _ _)
  · rw [simStep_max_drawdown]
    refine le_trans h.2 (le_max_left _ _)

theorem foldl_simStep_inv (l : List Row) (st : SimState)
    (h : 0 < st.peak_equity ∧ 0 ≤ st.max_drawdown) :
    0 < (l.foldl simStep st).peak_equity ∧ 0 ≤ (l.foldl simStep st).max_drawdown := by
  induction l generalizing st with
  | nil => simpa using h
  | cons row l ih => simpa using ih (simStep st row) (simStep_inv st row h)

/-- The drawdown recorded on a bar is nonnegative: the updated peak
dominates the mark-to-market value and is positive. -/
theorem simStep_mdd_nonneg (st : SimState) (row : Row)
    (h : 0 < st.peak_equity) (h2 : 0 ≤ st.max_drawdown) :
    0 ≤ (simStep st row).max_drawdown :=
  (simStep_inv st row ⟨h, h2⟩).2

theorem foldl_take_mdd_mono (rows : List Row) (st : SimState) (i j : Nat)
    (hij : i ≤ j) :
    ((rows.take i).foldl simStep st).max_drawdown ≤
      ((rows.take j).foldl simStep st).max_drawdown := by
  have hpre : rows.take i <+: rows.take j := by
    have : (rows.take j).take i = rows.take i := by
      rw [List.take_take, Nat.min_eq_left hij]
    rw [← this]
    exact List.take_prefix i (rows.take j)
  obtain ⟨t, ht⟩ := hpre
  rw [← ht, List.foldl_append]
  exact foldl_simStep_mdd_mono t _

/-- Profit bookkeeping: equity always equals the initial capital plus the
realized profits of the recorded trades. -/
theorem simStep_equity_profit (st : SimState) (row : Row) (init : ℚ)
    (h : st.equity = init + (st.trades.map Trade.profit).sum) :
    (simStep st row).equity = init + ((simStep st row).trades.map Trade.profit).sum := by
  simp only [simStep, bookKeep, entryStep, exitStep]
  split
  · split
    · simp [h]; ring
    · simp [h]; ring
  · split
    · simp [h]
    · simp [h]

theorem foldl_simStep_equity_profit (l : List Row) (st : SimState) (init : ℚ)
    (h : st.equity = init + (st.trades.map Trade.profit).sum) :
    (l.foldl simStep st).equity =
      init + (((l.foldl simStep st).trades.map Trade.profit)).sum := by
  induction l generalizing st with
  | nil => simpa using h
  | cons row l ih => simpa using ih (simStep st row) (simStep_equity_profit st row init h)

theorem forceClose_equity_profit (rows : List Row) (st : SimState) (init : ℚ)
    (h : st.equity = init + (st.trades.map Trade.profit).sum) :
    (forceClose rows st).equity =
      init + ((forceClose rows st).trades.map Trade.profit).sum := by
  simp only [forceClose]
  split
  · split
    · simp [h]; ring
    · exact h
  · exact h

/-! ## Claim theorems -/

/-- C1: the specification requires a chain of three or more same-operator
terms (here AND) to parse into a single flattened LogicalOperation built
without mutation.  In the code, and_expr receives the five flat children
[comparison, AND, comparison, AND, comparison] and its three-way unpacking
raises ValueError, which parse_dsl swallows, returning None - while a
two-term chain still parses.  This theorem evaluates the model at the
failing input and at the two-term contrast input. -/
theorem c1_and_chain_of_three_fails_to_parse :
    parseDsl "ENTRY: close > 1 AND close > 2 AND close > 3" = none ∧
    parseDsl "ENTRY: close > 1 AND close > 2" =
      some ⟨[.entryRule (.logicalOperation "AND"
        [.comparison ">" (.identifier "close") (.number 1),
         .comparison ">" (.identifier "close") (.number 2)])]⟩ :=
  ⟨rfl, rfl⟩

/-- C2: the specification requires "a AND b OR c" to parse as
OR(AND(a,b),c).  The grammar does give OR the loosest binding, but the
or_expr transformer calls LogicalOperation(op, left, right) - three
positional arguments to the two-parameter constructor - so every OR raises
TypeError and parse_dsl returns None. -/
theorem c2_mixed_and_or_fails_to_parse :
    parseDsl "ENTRY: close > 1 AND close > 2 OR close > 3" = none ∧
    parseCore "ENTRY: close > 1 AND close > 2 OR close > 3" =
      .error ⟨0, "TypeError: LogicalOperation() takes 2 positional arguments"⟩ :=
  ⟨rfl, rfl⟩

/-- C3 counterexample: on malformed input the caller does not receive a
ParseError value carrying position and message - the underlying error
(here a lexer error at position 15) is caught inside parse_dsl, which
returns None. -/
theorem c3_counterexample_error_discarded :
    parseCore "ENTRY: close > $" = .error ⟨15, "unexpected character"⟩ ∧
    parseDsl "ENTRY: close > $" = none :=
  ⟨rfl, rfl⟩

/-- C3 (amended): parse_dsl either returns the complete Strategy of the
underlying parse or returns None when that parse raises; the raised
error's position/message are printed and discarded, never returned, and no
partial AST is produced. -/
theorem c3_parse_total_or_none :
    (∀ (s : String) (e : PErr), parseCore s = .error e → parseDsl s = none) ∧
    (∀ (s : String) (t : AstStrategy), parseCore s = .ok t → parseDsl s = some t) := by
  constructor
  · intro s e h; simp [parseDsl, h]
  · intro s t h; simp [parseDsl, h]

/-- C3 witness: the amended theorem applied at a concrete malformed
input. -/
theorem c3_parse_total_or_none_witness :
    parseCore "EXIT: @" = .error ⟨6, "unexpected character"⟩ ∧
    parseDsl "EXIT: @" = none :=
  ⟨rfl, c3_parse_total_or_none.1 "EXIT: @" ⟨6, "unexpected character"⟩ rfl⟩

/-- C4: CrossOver evaluation yields a same-length boolean sequence that is
false at index 0 and true at i >= 1 exactly when left[i] > right[i] and
left[i-1] <= right[i-1]; and the documented example evaluates as
claimed. -/
theorem c4_crossover_semantics :
    (∀ (l r : List ℚ), l.length = r.length →
      (crossOverEval l r).length = l.length ∧
      (0 < l.length → (crossOverEval l r).getD 0 false = false) ∧
      (∀ i, 0 < i → i < l.length →
        ((crossOverEval l r).getD i false = true ↔
          (r.getD i 0 < l.getD i 0 ∧ l.getD (i - 1) 0 ≤ r.getD (i - 1) 0)))) ∧
    crossOverEval [1, 3, 2, 5] [2, 2, 3, 3] = [false, true, false, true] := by
  refine ⟨fun l r h => ⟨crossOverEval_length l r h,
    fun h0 => crossOverEval_zero l r h h0,
    fun i hp hi => crossOverEval_pos l r h i hp hi⟩, by decide⟩

/-- C4 witness: the quantified part applied to the documented concrete
input. -/
theorem c4_crossover_witness :
    ([1, 3, 2, 5] : List ℚ).length = ([2, 2, 3, 3] : List ℚ).length ∧
    (crossOverEval [1, 3, 2, 5] [2, 2, 3, 3]).length = 4 := by
  refine ⟨by decide, ?_⟩
  have h := (c4_crossover_semantics.1 [1, 3, 2, 5] [2, 2, 3, 3] (by decide)).1
  simpa using h

/-- C5 counterexample: max_drawdown is not confined to [0,1].  Opening at
close 20000 with capital 10000 and a next close of 1 drives mark-to-market
to -9999, giving a drawdown of 19999/10000 > 1. -/
theorem c5_counterexample_drawdown_exceeds_one :
    (runSim [⟨0, 20000, true, false⟩, ⟨1, 1, false, false⟩] 10000).max_drawdown =
      19999 / 10000 ∧
    ¬ (runSim [⟨0, 20000, true, false⟩, ⟨1, 1, false, false⟩] 10000).max_drawdown ≤ 1 := by
  have h : (runSim [⟨0, 20000, true, false⟩, ⟨1, 1, false, false⟩] 10000).max_drawdown =
      19999 / 10000 := by
    norm_num [runSim, simStep, bookKeep, entryStep, exitStep, markToMarket,
      initSimState, forceClose, List.foldl]
  refine ⟨h, by rw [h]; norm_num⟩

/-- C5 (amended): the per-bar drawdown update measures against the running
peak-to-date mark-to-market equity (not the initial capital), max_drawdown
is monotonically non-decreasing over the bars, and with positive initial
capital it stays nonnegative - but it may exceed 1 when mark-to-market
equity goes negative. -/
theorem c5_drawdown_properties :
    (∀ (st : SimState) (row : Row),
      (simStep st row).max_drawdown =
        max st.max_drawdown
          ((max st.peak_equity (markToMarket (entryStep (exitStep st row) row) row) -
            markToMarket (entryStep (exitStep st row) row) row) /
           max st.peak_equity (markToMarket (entryStep (exitStep st row) row) row))) ∧
    (∀ (rows : List Row) (init : ℚ) (i j : Nat), i ≤ j →
      ((rows.take i).foldl simStep (initSimState init)).max_drawdown ≤
        ((rows.take j).foldl simStep (initSimState init)).max_drawdown) ∧
    (∀ (rows : List Row) (init : ℚ), 0 < init → ∀ i : Nat,
      0 ≤ ((rows.take i).foldl simStep (initSimState init)).max_drawdown) := by
  refine ⟨simStep_max_drawdown, ?_, ?_⟩
  · intro rows init i j hij
    exact foldl_take_mdd_mono rows (initSimState init) i j hij
  · intro rows init hpos i
    exact (foldl_simStep_inv (rows.take i) (initSimState init)
      ⟨by simpa [initSimState] using hpos, by simp [initSimState]⟩).2

/-- C5 witness: the amended theorem applied to a concrete two-bar run. -/
theorem c5_drawdown_properties_witness :
    (1 : Nat) ≤ 2 ∧
    ((([⟨0, 10, true, false⟩, ⟨1, 12, false, false⟩] : List Row).take 1).foldl
        simStep (initSimState 100)).max_drawdown ≤
      ((([⟨0, 10, true, false⟩, ⟨1, 12, false, false⟩] : List Row).take 2).foldl
        simStep (initSimState 100)).max_drawdown ∧
    (0 : ℚ) < 100 ∧
    0 ≤ ((([⟨0, 10, true, false⟩, ⟨1, 12, false, false⟩] : List Row).take 2).foldl
        simStep (initSimState 100)).max_drawdown :=
  ⟨by norm_num,
   c5_drawdown_properties.2.1 [⟨0, 10, true, false⟩, ⟨1, 12, false, false⟩] 100 1 2
     (by norm_num),
   by norm_num,
   c5_drawdown_properties.2.2 [⟨0, 10, true, false⟩, ⟨1, 12, false, false⟩] 100
     (by norm_num) 2⟩

/-- C6: on a bar whose exit and entry signals are both true while LONG, the
engine closes at the bar's close, records the trade realized on that bar,
and reopens at the same close, ending the bar LONG with entry_price and
entry_date taken from this bar. -/
theorem c6_same_bar_close_then_reopen (st : SimState) (row : Row)
    (hh : st.holding = true) (hx : row.exitSignal = true) (he : row.entrySignal = true) :
    (simStep st row).holding = true ∧
    (simStep st row).entry_price = row.close ∧
    (simStep st row).entry_date = row.date ∧
    (simStep st row).trades = st.trades ++
      [⟨st.entry_date, row.date, st.entry_price, row.close, row.close - st.entry_price⟩] ∧
    (simStep st row).equity = st.equity + (row.close - st.entry_price) := by
  simp [simStep, bookKeep, entryStep, exitStep, hh, hx, he]

/-- C6 witness: a concrete LONG state and a bar with both signals. -/
theorem c6_same_bar_witness :
    (⟨true, 10000, 50, 5, [], [], 10000, 0⟩ : SimState).holding = true ∧
    (simStep ⟨true, 10000, 50, 5, [], [], 10000, 0⟩ ⟨7, 60, true, true⟩).trades =
      [⟨5, 7, 50, 60, 10⟩] ∧
    (simStep ⟨true, 10000, 50, 5, [], [], 10000, 0⟩ ⟨7, 60, true, true⟩).holding = true := by
  have h := c6_same_bar_close_then_reopen ⟨true, 10000, 50, 5, [], [], 10000, 0⟩
    ⟨7, 60, true, true⟩ rfl rfl rfl
  refine ⟨rfl, ?_, h.1⟩
  rw [h.2.2.2.1]
  norm_num

/-- Strategy exhibiting the memoization-key collision used by the C7
counterexample: SMA(a_b) and SMA(a, b) both map to column sma_a_b. -/
def collidingStrategy : AstStrategy :=
  ⟨[.entryRule (.comparison ">" (.indicator "SMA" [.identifier "a_b"])
      (.indicator "SMA" [.identifier "a", .identifier "b"])),
    .exitRule (.comparison "<"
      (.indicator "SMA" [.identifier "a", .identifier "b"]) (.number 0))]⟩

/-- C7 counterexample: the indicator sub-expression SMA(a, b) (keyed by
name and parameter list) occurs twice in the strategy, yet its underlying
computation line is emitted zero times - the underscore-joined column name
sma_a_b collides with the one already generated for SMA(a_b), so both
references silently reuse that other indicator's column. -/
theorem c7_counterexample_key_collision :
    countNodesStrat
      (fun e => match e with
        | .indicator n ps =>
            n = "SMA" && (match ps with
              | [.identifier x, .identifier y] => x = "a" && y = "b"
              | _ => false)
        | _ => false) collidingStrategy = 2 ∧
    generateSt collidingStrategy =
      .ok (⟨["sma_a_b"], ["df[\x27sma_a_b\x27] = indicators.sma(df[\x27a_b\x27])"]⟩,
        "(df[\x27sma_a_b\x27] > df[\x27sma_a_b\x27])",
        "(df[\x27sma_a_b\x27] < 0.0)") ∧
    List.count "df[\x27sma_a_b\x27] = indicators.sma(df[\x27a\x27], df[\x27b\x27])"
      ["df[\x27sma_a_b\x27] = indicators.sma(df[\x27a_b\x27])"] = 0 :=
  ⟨rfl, rfl, rfl⟩

/-- C7 (amended): memoization is keyed by the generated column name
(lowercased name and underscore-joined parameter renderings).  On every
successful generation the recorded column names are pairwise distinct,
exactly one indicator line is emitted per recorded column, and the
recorded columns are exactly the keys occurring in the strategy's rule
conditions - so a key occurring several times is computed exactly once,
though distinct parameter lists rendering to the same column name are
conflated. -/
theorem c7_indicator_memoization :
    ∀ (s : AstStrategy) (st : GenState) (en ex : String),
      generateSt s = .ok (st, en, ex) →
      st.generated_indicators.Nodup ∧
      st.indicator_code.length = st.generated_indicators.length ∧
      (∀ k, k ∈ st.generated_indicators ↔ k ∈ stratKeys s) := by
  intro s st en ex h
  obtain ⟨hinv, hiff⟩ := generateRules_inv s.rules ⟨[], []⟩ "False" "False" st en ex
    ⟨List.nodup_nil, rfl⟩ h
  refine ⟨hinv.1, hinv.2, fun k => ?_⟩
  simpa [stratKeys] using hiff k

/-- Strategy using the same SMA(close, 20) in the entry and the exit
condition, for the C7 witness. -/
def memoStrategy : AstStrategy :=
  ⟨[.entryRule (.comparison ">"
      (.indicator "SMA" [.identifier "close", .number 20]) (.number 0)),
    .exitRule (.comparison "<"
      (.indicator "SMA" [.identifier "close", .number 20]) (.number 0))]⟩

/-- C7 witness: the amended theorem applied to a strategy that references
SMA(close, 20) in both entry and exit; one line is emitted. -/
theorem c7_indicator_memoization_witness :
    generateSt memoStrategy =
      .ok (⟨["sma_close_20.0"],
        ["df[\x27sma_close_20.0\x27] = indicators.sma(df[\x27close\x27], 20.0)"]⟩,
        "(df[\x27sma_close_20.0\x27] > 0.0)", "(df[\x27sma_close_20.0\x27] < 0.0)") ∧
    (∀ k, k ∈ (⟨["sma_close_20.0"],
        ["df[\x27sma_close_20.0\x27] = indicators.sma(df[\x27close\x27], 20.0)"]⟩ :
        GenState).generated_indicators ↔ k ∈ stratKeys memoStrategy) :=
  ⟨rfl, (c7_indicator_memoization memoStrategy
    ⟨["sma_close_20.0"],
     ["df[\x27sma_close_20.0\x27] = indicators.sma(df[\x27close\x27], 20.0)"]⟩
    "(df[\x27sma_close_20.0\x27] > 0.0)" "(df[\x27sma_close_20.0\x27] < 0.0)" rfl).2.2⟩

/-- C8: the generic Cross node is evaluated exactly as CrossOver: the
visitor emits the identical pandas expression, and the elementwise
semantics of the two emitted expressions agree on all input columns. -/
theorem c8_cross_equals_crossover :
    (∀ (l r : List ℚ), crossEval l r = crossOverEval l r) ∧
    (∀ (a b : AstExpr) (st : GenState),
      visit (.cross a b) st = visit (.crossOver a b) st) := by
  refine ⟨fun l r => rfl, fun a b st => ?_⟩
  simp only [visit]

/-- C9 (amended): signal code generation keeps only the last EntryRule /
ExitRule condition at the expression level: the produced entry (resp.
exit) expression string is the rendering of the last such rule's
condition, "False" when there is none.  Earlier same-kind rules are
visited and discarded, but their visits still populate the memoized
indicator columns, so under a column-name collision they can change which
computation the produced signals use (see the C9 counterexample). -/
theorem c9_last_rule_of_each_kind_wins :
    ∀ (s : AstStrategy) (st : GenState) (en ex : String),
      generateSt s = .ok (st, en, ex) →
      ((match lastEntryCond s.rules with
        | some c => visitCode c = .ok en
        | none => en = "False") ∧
       (match lastExitCond s.rules with
        | some c => visitCode c = .ok ex
        | none => ex = "False")) := by
  intro s st en ex h
  exact generateRules_last s.rules ⟨[], []⟩ "False" "False" st en ex h

/-- Strategy with two entry rules, for the C9 witness: the produced entry
code is that of the second rule. -/
def dupEntryStrategy : AstStrategy :=
  ⟨[.entryRule (.comparison ">" (.identifier "close") (.number 1)),
    .entryRule (.comparison "<" (.identifier "close") (.number 2))]⟩

/-- C9 witness: applied to a concrete strategy with duplicate entry
rules. -/
theorem c9_last_rule_wins_witness :
    generateSt dupEntryStrategy =
      .ok (⟨[], []⟩, "(df[\x27close\x27] < 2.0)", "False") ∧
    visitCode (.comparison "<" (.identifier "close") (.number 2)) =
      .ok "(df[\x27close\x27] < 2.0)" := by
  refine ⟨rfl, ?_⟩
  have h := (c9_last_rule_of_each_kind_wins dupEntryStrategy ⟨[], []⟩
    "(df[\x27close\x27] < 2.0)" "False" rfl).1
  exact h

/-- C10: the final equity of a run equals the initial capital plus the sum
of the recorded trade profits (the forced end-of-data close included),
total_profit equals that sum, and an empty trade list leaves the capital
unchanged. -/
theorem c10_final_equity_sums_profits :
    ∀ (rows : List Row) (init : ℚ),
      (runSim rows init).final_equity =
        init + ((runSim rows init).trades.map Trade.profit).sum ∧
      (runSim rows init).total_profit =
        ((runSim rows init).trades.map Trade.profit).sum ∧
      ((runSim rows init).trades = [] → (runSim rows init).final_equity = init) := by
  intro rows init
  have hbase : (initSimState init).equity =
      init + ((initSimState init).trades.map Trade.profit).sum := by
    simp [initSimState]
  have hfold := foldl_simStep_equity_profit rows (initSimState init) init hbase
  have hfc := forceClose_equity_profit rows (rows.foldl simStep (initSimState init))
    init hfold
  have hmain : (runSim rows init).final_equity =
      init + ((runSim rows init).trades.map Trade.profit).sum := by
    simp only [runSim]
    exact hfc
  refine ⟨hmain, ?_, ?_⟩
  · have : (runSim rows init).total_profit =
        (runSim rows init).final_equity - init := by
      simp [runSim]
    rw [this, hmain]; ring
  · intro h
    rw [hmain, h]; simp

/-- C10 witness: the empty run keeps the initial capital. -/
theorem c10_final_equity_witness :
    (runSim [] 10000).trades = [] ∧ (runSim [] 10000).final_equity = 10000 :=
  ⟨rfl, (c10_final_equity_sums_profits [] 10000).2.2 rfl⟩

/-- Strategy for the C9 counterexample: an earlier EntryRule whose
indicator key collides with the last EntryRule's SMA(a, b). -/
def earlierRuleStrategy : AstStrategy :=
  ⟨[.entryRule (.comparison ">" (.indicator "SMA" [.identifier "a_b"]) (.number 0)),
    .entryRule (.comparison ">"
      (.indicator "SMA" [.identifier "a", .identifier "b"]) (.number 0))]⟩

/-- Strategy holding only the last EntryRule of earlierRuleStrategy. -/
def lastOnlyStrategy : AstStrategy :=
  ⟨[.entryRule (.comparison ">"
      (.indicator "SMA" [.identifier "a", .identifier "b"]) (.number 0))]⟩

/-- C9 counterexample: earlier same-kind rules are not always without
effect on the produced signals.  earlierRuleStrategy and lastOnlyStrategy
have the same last EntryRule condition, and generation produces the same
entry expression string for both - but the earlier rule's SMA(a_b) visit
has already claimed the memoization key sma_a_b, so the two generated
signal programs define the very column that entry expression reads by
different computations (sma(df[a_b]) versus sma(df[a], df[b])): removing
the earlier rule changes the produced entry signals. -/
theorem c9_counterexample_earlier_rule_affects_signals :
    lastEntryCond earlierRuleStrategy.rules =
      some (.comparison ">"
        (.indicator "SMA" [.identifier "a", .identifier "b"]) (.number 0)) ∧
    lastEntryCond lastOnlyStrategy.rules =
      some (.comparison ">"
        (.indicator "SMA" [.identifier "a", .identifier "b"]) (.number 0)) ∧
    generateSt earlierRuleStrategy =
      .ok (⟨["sma_a_b"], ["df[\x27sma_a_b\x27] = indicators.sma(df[\x27a_b\x27])"]⟩,
        "(df[\x27sma_a_b\x27] > 0.0)", "False") ∧
    generateSt lastOnlyStrategy =
      .ok (⟨["sma_a_b"],
        ["df[\x27sma_a_b\x27] = indicators.sma(df[\x27a\x27], df[\x27b\x27])"]⟩,
        "(df[\x27sma_a_b\x27] > 0.0)", "False") ∧
    ("df[\x27sma_a_b\x27] = indicators.sma(df[\x27a_b\x27])" ≠
     "df[\x27sma_a_b\x27] = indicators.sma(df[\x27a\x27], df[\x27b\x27])") :=
  ⟨rfl, rfl, rfl, rfl, by decide⟩
